import Mathlib

/-!
Verification of the license-activation service in src/main.py.

The store is modelled as a list of License rows (the licenses table, whose
primary key is the key column).  Each HTTP handler becomes a pure function
from the store and the request fields to a result and the new store.
Request fields coming from data.get are modelled as Option String: none is
an absent or null JSON field.  Python truthiness of a string field (the
check "if not key or not hwid") is the function truthy below.
-/

/-- Row of the licenses table (class License in src/main.py, lines 36-42):
key is the primary key, hwid and nickname are nullable, active defaults
to true on insert. -/
structure License where
  key : String
  hwid : Option String
  nickname : Option String
  active : Bool
deriving Repr, DecidableEq

/-- The licenses table: a list of rows. -/
abbrev Store := List License

/-- Python truthiness of an optional string field: None and the empty
string are falsy, everything else truthy. -/
def truthy : Option String → Bool
  | none => false
  | some s => !(s == "")

/-- SQLAlchemy filter_by(key=k) on the licenses table: a row matches when
its key column equals the given value.  With k = none the generated SQL is
key IS NULL, which no row satisfies since key is a non-nullable primary
key. -/
def licMatches (k : Option String) (l : License) : Bool :=
  match k with
  | none => false
  | some s => l.key == s

/-- Outcome of POST /verify (src/main.py lines 195-223): the HTTP error
codes invalid_request (400), invalid_key (403), hwid_mismatch (403), or
the success bodies with status binded or ok. -/
inductive VerifyResult where
  | invalidRequest
  | invalidKey
  | hwidMismatch
  | binded
  | ok
deriving Repr, DecidableEq

/-- Outcome of POST /admin/revoke (src/main.py lines 239-253): 404
not found, or the success body with status deleted. -/
inductive RevokeResult where
  | deleted
  | notFound
deriving Repr, DecidableEq

/-- The mutation performed by the bind branch of verify (lines 213-214):
lic.hwid = hwid; lic.nickname = nickname. -/
def bindLic (h : String) (n : Option String) (l : License) : License :=
  { l with hwid := some h, nickname := n }

/-- Commit of an in-place mutation of the row returned by first(): the
first row satisfying p is replaced by its image under f, every other row
is untouched. -/
def updateFirst (p : License → Bool) (f : License → License) : Store → Store
  | [] => []
  | l :: ls => if p l then f l :: ls else l :: updateFirst p f ls

/-- POST /verify handler (src/main.py lines 195-223).  Reads key, hwid and
nickname from the JSON body; rejects a missing or empty key or hwid with
invalid_request; looks the key up; rejects an absent or inactive row with
invalid_key; binds hwid and nickname on a row whose hwid is NULL; otherwise
compares hwids and answers ok or hwid_mismatch. -/
def verify (st : Store) (keyF hwidF nickF : Option String) :
    VerifyResult × Store :=
  if !truthy keyF || !truthy hwidF then (VerifyResult.invalidRequest, st)
  else
    match st.find? (licMatches keyF) with
    | none => (VerifyResult.invalidKey, st)
    | some lic =>
      if !lic.active then (VerifyResult.invalidKey, st)
      else
        match lic.hwid with
        | none =>
          (VerifyResult.binded,
            updateFirst (licMatches keyF) (bindLic (hwidF.getD "") nickF) st)
        | some h =>
          if h == hwidF.getD "" then (VerifyResult.ok, st)
          else (VerifyResult.hwidMismatch, st)

/-- The alphabet of generate_key: string.ascii_uppercase + string.digits. -/
def alphabet : List Char := "ABCDEFGHIJKLMNOPQRSTUVWXYZ0123456789".toList

/-- generate_key (src/main.py lines 89-94): three dash-joined groups of
five characters, each produced by secrets.choice(alphabet).  The fifteen
successive random draws are modelled by the function choice; draw number
5 * g + i is character i of group g. -/
def generate_key (choice : Nat → Char) : String :=
  String.intercalate "-"
    ((List.range 3).map (fun g =>
      String.mk ((List.range 5).map (fun i => choice (5 * g + i)))))

/-- POST /admin/genkey handler (src/main.py lines 227-234): generates a
key, inserts License(key=key) — hwid and nickname NULL, active true by
column default — and returns the key. -/
def genkey (st : Store) (choice : Nat → Char) : String × Store :=
  (generate_key choice,
    st ++ [{ key := generate_key choice, hwid := none, nickname := none,
             active := true }])

/-- POST /admin/revoke handler (src/main.py lines 239-253): looks the key
up, answers 404 when absent, otherwise deletes the row and answers
status deleted. -/
def revoke (st : Store) (keyF : Option String) : RevokeResult × Store :=
  match st.find? (licMatches keyF) with
  | none => (RevokeResult.notFound, st)
  | some _ => (RevokeResult.deleted, st.eraseP (licMatches keyF))

/-- One element of the GET /admin/list response body. -/
structure KeyEntry where
  key : String
  hwid : Option String
  nickname : Option String
  active : Bool
deriving Repr, DecidableEq

/-- GET /admin/list handler (src/main.py lines 256-270): projects every
row; performs no write, so the store component is returned unchanged. -/
def list_keys (st : Store) : List KeyEntry × Store :=
  (st.map (fun l => { key := l.key, hwid := l.hwid, nickname := l.nickname,
                      active := l.active }), st)

/-- The primary-key constraint of the licenses table: all keys in the
store are distinct. -/
def keysNodup (st : Store) : Prop :=
  (st.map License.key).Nodup

/-- The spec pattern XXXXX-XXXXX-XXXXX: exactly seventeen characters,
dashes at positions 5 and 11, all others drawn from the uppercase-plus-
digits alphabet. -/
def matchesKeyPattern (s : String) : Bool :=
  match s.data with
  | a1 :: a2 :: a3 :: a4 :: a5 :: d1 ::
    b1 :: b2 :: b3 :: b4 :: b5 :: d2 ::
    c1 :: c2 :: c3 :: c4 :: c5 :: [] =>
      d1 == '-' && d2 == '-' &&
      ([a1, a2, a3, a4, a5, b1, b2, b3, b4, b5,
        c1, c2, c3, c4, c5].all alphabet.contains)
  | _ => false

/-- Hardware-id write-once relation between a store and its successor:
a row whose hwid is already set keeps that exact hwid in every row of the
successor store that carries the same key. -/
def hwidOnce (st stNew : Store) : Prop :=
  ∀ l ∈ st, ∀ hv, l.hwid = some hv →
    ∀ lNew ∈ stNew, lNew.key = l.key → lNew.hwid = some hv

theorem licMatches_none (l : License) : licMatches none l = false := rfl

theorem find?_licMatches_none (st : Store) :
    st.find? (licMatches none) = none := by
  simp [List.find?_eq_none, licMatches_none]

/-- Claim C5: an Activate request whose key or hwid field is absent or
empty fails with invalid_request and leaves the store untouched. -/
theorem C5_missing_fields_invalid_request
    (st : Store) (keyF hwidF nickF : Option String)
    (hcase : truthy keyF = false ∨ truthy hwidF = false) :
    verify st keyF hwidF nickF = (VerifyResult.invalidRequest, st) := by
  rcases hcase with h | h <;> simp [verify, h]

/-- Witness for C5 at the concrete request with key absent. -/
theorem C5_missing_fields_invalid_request_witness :
    truthy none = false ∧
    verify [] none (some "HW-001") none = (VerifyResult.invalidRequest, []) :=
  ⟨rfl, C5_missing_fields_invalid_request [] none (some "HW-001") none
    (Or.inl rfl)⟩

/-- Claim C10: RevokeKey with the key field absent or null is treated as a
lookup of a nonexistent key: it fails with 404 not found and leaves the
store unchanged, with no invalid_request path. -/
theorem C10_revoke_missing_key_not_found (st : Store) :
    revoke st none = (RevokeResult.notFound, st) := by
  simp [revoke, find?_licMatches_none]

/-- Claim C4: Activate on a key with no row, or whose row is inactive,
fails with invalid_key and leaves the store unchanged. -/
theorem C4_absent_or_inactive_invalid_key
    (st : Store) (k h : String) (nickF : Option String)
    (hk : k ≠ "") (hh : h ≠ "")
    (hcase : st.find? (licMatches (some k)) = none ∨
      ∃ lic, st.find? (licMatches (some k)) = some lic ∧ lic.active = false) :
    verify st (some k) (some h) nickF = (VerifyResult.invalidKey, st) := by
  rcases hcase with hf | ⟨lic, hf, hact⟩
  · simp [verify, truthy, hk, hh, hf]
  · simp [verify, truthy, hk, hh, hf, hact]

/-- Witness for C4 on the empty store. -/
theorem C4_absent_or_inactive_invalid_key_witness :
    ("K" : String) ≠ "" ∧ ("HW-001" : String) ≠ "" ∧
    ([] : Store).find? (licMatches (some "K")) = none ∧
    verify [] (some "K") (some "HW-001") none =
      (VerifyResult.invalidKey, []) :=
  ⟨by decide, by decide, rfl,
    C4_absent_or_inactive_invalid_key [] "K" "HW-001" none
      (by decide) (by decide) (Or.inl rfl)⟩

/-- Claim C3: Activate with a hardware id differing from the bound one
fails with hwid_mismatch and the whole store, in particular the stored
row for that key, is unchanged. -/
theorem C3_bound_mismatch_rejected
    (st : Store) (k h1 h2 : String) (nickF : Option String) (lic : License)
    (hk : k ≠ "") (hh : h2 ≠ "")
    (hfind : st.find? (licMatches (some k)) = some lic)
    (hact : lic.active = true) (hbound : lic.hwid = some h1)
    (hne : h1 ≠ h2) :
    verify st (some k) (some h2) nickF = (VerifyResult.hwidMismatch, st) := by
  simp [verify, truthy, hk, hh, hfind, hact, hbound, hne]

/-- Witness for C3 at a store holding one bound row. -/
theorem C3_bound_mismatch_rejected_witness :
    ([⟨"K", some "HW-001", none, true⟩] : Store).find?
      (licMatches (some "K")) = some ⟨"K", some "HW-001", none, true⟩ ∧
    ("HW-001" : String) ≠ "HW-002" ∧
    verify [⟨"K", some "HW-001", none, true⟩] (some "K") (some "HW-002")
      none =
      (VerifyResult.hwidMismatch, [⟨"K", some "HW-001", none, true⟩]) :=
  ⟨by decide, by decide,
    C3_bound_mismatch_rejected [⟨"K", some "HW-001", none, true⟩]
      "K" "HW-001" "HW-002" none ⟨"K", some "HW-001", none, true⟩
      (by decide) (by decide) (by decide) rfl rfl (by decide)⟩

theorem find?_updateFirst (p : License → Bool) (f : License → License)
    (st : Store) (lic : License)
    (hfind : st.find? p = some lic) (hpf : p (f lic) = true) :
    (updateFirst p f st).find? p = some (f lic) := by
  induction st with
  | nil => simp at hfind
  | cons a as ih =>
    cases hpa : p a with
    | true =>
      have ha : a = lic := by
        rw [List.find?_cons_of_pos as hpa] at hfind
        exact Option.some.inj hfind
      subst ha
      simp [updateFirst, hpa, hpf]
    | false =>
      rw [List.find?_cons_of_neg as (by simp [hpa])] at hfind
      simp [updateFirst, hpa, ih hfind]

theorem keysNodup_cons {a : License} {as : Store} (h : keysNodup (a :: as)) :
    (∀ l ∈ as, l.key ≠ a.key) ∧ keysNodup as := by
  rw [keysNodup, List.map_cons, List.nodup_cons] at h
  refine ⟨fun l hl he => h.1 ?_, h.2⟩
  rw [← he]
  exact List.mem_map_of_mem License.key hl

theorem eq_of_keysNodup {st : Store} (hnd : keysNodup st)
    {l1 l2 : License} (h1 : l1 ∈ st) (h2 : l2 ∈ st) (hk : l1.key = l2.key) :
    l1 = l2 := by
  induction st with
  | nil => cases h1
  | cons a as ih =>
    have hc := keysNodup_cons hnd
    rcases List.mem_cons.mp h1 with rfl | h1m
    · rcases List.mem_cons.mp h2 with rfl | h2m
      · rfl
      · exact absurd hk.symm (hc.1 l2 h2m)
    · rcases List.mem_cons.mp h2 with rfl | h2m
      · exact absurd hk (hc.1 l1 h1m)
      · exact ih hc.2 h1m h2m

theorem find?_eraseP_of_keysNodup (st : Store) (k : String)
    (hnd : keysNodup st) :
    (st.eraseP (licMatches (some k))).find? (licMatches (some k)) = none := by
  induction st with
  | nil => rfl
  | cons a as ih =>
    have hc := keysNodup_cons hnd
    cases hpa : licMatches (some k) a with
    | true =>
      have hak : a.key = k := by simpa [licMatches] using hpa
      rw [List.eraseP_cons_of_pos hpa, List.find?_eq_none]
      intro x hx
      simp only [licMatches, beq_iff_eq]
      intro hxk
      exact hc.1 x hx (by rw [hxk, hak])
    | false =>
      rw [List.eraseP_cons_of_neg (by simp [hpa]),
        List.find?_cons_of_neg _ (by simp [hpa])]
      exact ih hc.2

/-- Claim C1: Activate on an existing, active, unbound row binds the given
hardware id and nickname, persists them, and answers with status binded. -/
theorem C1_unbound_bind_persists
    (st : Store) (k h : String) (nickF : Option String) (lic : License)
    (hk : k ≠ "") (hh : h ≠ "")
    (hfind : st.find? (licMatches (some k)) = some lic)
    (hact : lic.active = true) (hunb : lic.hwid = none) :
    (verify st (some k) (some h) nickF).fst = VerifyResult.binded ∧
    (verify st (some k) (some h) nickF).snd.find? (licMatches (some k)) =
      some { lic with hwid := some h, nickname := nickF } := by
  have hv : verify st (some k) (some h) nickF =
      (VerifyResult.binded,
        updateFirst (licMatches (some k)) (bindLic h nickF) st) := by
    simp [verify, truthy, hk, hh, hfind, hact, hunb]
  have hpf : licMatches (some k) (bindLic h nickF lic) = true := by
    have hpl : licMatches (some k) lic = true := List.find?_some hfind
    simpa [licMatches, bindLic] using hpl
  refine ⟨by rw [hv], ?_⟩
  rw [hv]
  simpa [bindLic] using
    find?_updateFirst (licMatches (some k)) (bindLic h nickF) st lic hfind hpf

/-- Witness for C1 at a one-row store holding a fresh key. -/
theorem C1_unbound_bind_persists_witness :
    ("K" : String) ≠ "" ∧ ("HW-001" : String) ≠ "" ∧
    ([⟨"K", none, none, true⟩] : Store).find? (licMatches (some "K")) =
      some ⟨"K", none, none, true⟩ ∧
    ((verify [⟨"K", none, none, true⟩] (some "K") (some "HW-001")
        (some "alice")).fst = VerifyResult.binded ∧
     (verify [⟨"K", none, none, true⟩] (some "K") (some "HW-001")
        (some "alice")).snd.find? (licMatches (some "K")) =
      some ⟨"K", some "HW-001", some "alice", true⟩) :=
  ⟨by decide, by decide, rfl,
    C1_unbound_bind_persists [⟨"K", none, none, true⟩] "K" "HW-001"
      (some "alice") ⟨"K", none, none, true⟩
      (by decide) (by decide) rfl rfl rfl⟩

theorem generate_key_data (choice : Nat → Char) :
    (generate_key choice).data =
      [choice 0, choice 1, choice 2, choice 3, choice 4, '-',
       choice 5, choice 6, choice 7, choice 8, choice 9, '-',
       choice 10, choice 11, choice 12, choice 13, choice 14] := by
  simp [generate_key, String.intercalate, String.intercalate.go,
    List.range_succ, String.mk]

theorem generate_key_ne_empty (choice : Nat → Char) :
    generate_key choice ≠ "" := by
  intro h
  have hd := congrArg String.data h
  rw [generate_key_data] at hd
  simp at hd

theorem matchesKeyPattern_generate_key (choice : Nat → Char)
    (hc : ∀ n, choice n ∈ alphabet) :
    matchesKeyPattern (generate_key choice) = true := by
  rw [matchesKeyPattern, generate_key_data]
  simp [List.all]
  refine ⟨?_, ?_, ?_, ?_, ?_, ?_, ?_, ?_, ?_, ?_, ?_, ?_, ?_, ?_, ?_⟩ <;>
    exact hc _

/-- Claim C7: IssueKey answers a key of shape XXXXX-XXXXX-XXXXX over
uppercase letters and digits and appends exactly one new row carrying that
key, with hwid and nickname unset and active true. -/
theorem C7_genkey_shape_and_row
    (st : Store) (choice : Nat → Char) (hc : ∀ n, choice n ∈ alphabet) :
    matchesKeyPattern (genkey st choice).fst = true ∧
    (genkey st choice).snd =
      st ++ [{ key := (genkey st choice).fst, hwid := none, nickname := none,
               active := true }] :=
  ⟨matchesKeyPattern_generate_key choice hc, rfl⟩

/-- Witness for C7 with every draw returning the letter A. -/
theorem C7_genkey_shape_and_row_witness :
    (∀ n : Nat, (fun _ : Nat => 'A') n ∈ alphabet) ∧
    (matchesKeyPattern (genkey [] (fun _ : Nat => 'A')).fst = true ∧
     (genkey [] (fun _ : Nat => 'A')).snd =
       [] ++ [{ key := (genkey [] (fun _ : Nat => 'A')).fst, hwid := none,
                nickname := none, active := true }]) :=
  ⟨fun _ => show 'A' ∈ alphabet by decide,
    C7_genkey_shape_and_row [] (fun _ : Nat => 'A')
      (fun _ => show 'A' ∈ alphabet by decide)⟩

/-- Claim C6: RevokeKey on an existing row deletes it and answers deleted;
repeating the call answers not found; a later Activate of the deleted key
answers invalid_key; and RevokeKey of any key with no row answers not
found leaving the store unchanged. -/
theorem C6_revoke_semantics
    (st : Store) (k h : String) (nickF : Option String) (lic : License)
    (st2 : Store) (kF : Option String)
    (hnd : keysNodup st) (hk : k ≠ "") (hh : h ≠ "")
    (hfind : st.find? (licMatches (some k)) = some lic)
    (habs : st2.find? (licMatches kF) = none) :
    revoke st (some k) =
      (RevokeResult.deleted, st.eraseP (licMatches (some k))) ∧
    revoke (st.eraseP (licMatches (some k))) (some k) =
      (RevokeResult.notFound, st.eraseP (licMatches (some k))) ∧
    verify (st.eraseP (licMatches (some k))) (some k) (some h) nickF =
      (VerifyResult.invalidKey, st.eraseP (licMatches (some k))) ∧
    revoke st2 kF = (RevokeResult.notFound, st2) := by
  have hgone := find?_eraseP_of_keysNodup st k hnd
  exact ⟨by simp [revoke, hfind], by simp [revoke, hgone],
    by simp [verify, truthy, hk, hh, hgone], by simp [revoke, habs]⟩

/-- Witness for C6 at a one-row store. -/
theorem C6_revoke_semantics_witness :
    keysNodup [⟨"K", some "HW-001", none, true⟩] ∧
    ([⟨"K", some "HW-001", none, true⟩] : Store).find?
      (licMatches (some "K")) = some ⟨"K", some "HW-001", none, true⟩ ∧
    ([] : Store).find? (licMatches (some "X")) = none ∧
    (revoke [⟨"K", some "HW-001", none, true⟩] (some "K") =
      (RevokeResult.deleted,
        ([⟨"K", some "HW-001", none, true⟩] : Store).eraseP
          (licMatches (some "K"))) ∧
     revoke (([⟨"K", some "HW-001", none, true⟩] : Store).eraseP
        (licMatches (some "K"))) (some "K") =
      (RevokeResult.notFound,
        ([⟨"K", some "HW-001", none, true⟩] : Store).eraseP
          (licMatches (some "K"))) ∧
     verify (([⟨"K", some "HW-001", none, true⟩] : Store).eraseP
        (licMatches (some "K"))) (some "K") (some "HW-001") none =
      (VerifyResult.invalidKey,
        ([⟨"K", some "HW-001", none, true⟩] : Store).eraseP
          (licMatches (some "K"))) ∧
     revoke [] (some "X") = (RevokeResult.notFound, [])) :=
  ⟨by simp [keysNodup], by decide, rfl,
    C6_revoke_semantics [⟨"K", some "HW-001", none, true⟩] "K" "HW-001"
      none ⟨"K", some "HW-001", none, true⟩ [] (some "X")
      (by simp [keysNodup]) (by decide) (by decide) (by decide) rfl⟩

/-- Claim C2: on a freshly issued key whose insert succeeded (no earlier
row carries the generated key), the first Activate with a non-empty
hardware id answers binded, and a repeat Activate with the same hardware
id answers ok and leaves the store — hence the stored row — unchanged. -/
theorem C2_fresh_key_bind_then_ok
    (st : Store) (choice : Nat → Char) (h : String) (n1 n2 : Option String)
    (hh : h ≠ "")
    (hfresh : ∀ l ∈ st, l.key ≠ generate_key choice) :
    (verify (genkey st choice).snd (some (genkey st choice).fst) (some h)
        n1).fst = VerifyResult.binded ∧
    verify (verify (genkey st choice).snd (some (genkey st choice).fst)
          (some h) n1).snd (some (genkey st choice).fst) (some h) n2 =
      (VerifyResult.ok,
        (verify (genkey st choice).snd (some (genkey st choice).fst)
          (some h) n1).snd) := by
  simp only [genkey]
  have hgk : generate_key choice ≠ "" := generate_key_ne_empty choice
  have hnone : st.find? (licMatches (some (generate_key choice))) = none := by
    rw [List.find?_eq_none]
    intro x hx
    simp only [licMatches, beq_iff_eq]
    exact hfresh x hx
  have hfind1 : (st ++ [(⟨generate_key choice, none, none, true⟩ :
        License)]).find? (licMatches (some (generate_key choice))) =
      some (⟨generate_key choice, none, none, true⟩ : License) := by
    simp [hnone, licMatches]
  have hbind : verify (st ++ [(⟨generate_key choice, none, none, true⟩ :
        License)]) (some (generate_key choice)) (some h) n1 =
      (VerifyResult.binded,
        updateFirst (licMatches (some (generate_key choice)))
          (bindLic h n1)
          (st ++ [(⟨generate_key choice, none, none, true⟩ : License)])) := by
    simp [verify, truthy, hgk, hh, hfind1]
  have hfind2 : (updateFirst (licMatches (some (generate_key choice)))
      (bindLic h n1)
      (st ++ [(⟨generate_key choice, none, none, true⟩ : License)])).find?
      (licMatches (some (generate_key choice))) =
      some (⟨generate_key choice, some h, n1, true⟩ : License) := by
    simpa [bindLic] using
      find?_updateFirst (licMatches (some (generate_key choice)))
        (bindLic h n1)
        (st ++ [(⟨generate_key choice, none, none, true⟩ : License)])
        (⟨generate_key choice, none, none, true⟩ : License)
        hfind1 (by simp [licMatches, bindLic])
  refine ⟨by rw [hbind], ?_⟩
  rw [hbind]
  simp [verify, truthy, hgk, hh, hfind2]

/-- Witness for C2 on the empty store with every draw returning A. -/
theorem C2_fresh_key_bind_then_ok_witness :
    ("HW-001" : String) ≠ "" ∧
    (∀ l ∈ ([] : Store), l.key ≠ generate_key (fun _ : Nat => 'A')) ∧
    ((verify (genkey [] (fun _ : Nat => 'A')).snd
        (some (genkey [] (fun _ : Nat => 'A')).fst) (some "HW-001")
        (some "alice")).fst = VerifyResult.binded ∧
     verify (verify (genkey [] (fun _ : Nat => 'A')).snd
          (some (genkey [] (fun _ : Nat => 'A')).fst) (some "HW-001")
          (some "alice")).snd
        (some (genkey [] (fun _ : Nat => 'A')).fst) (some "HW-001") none =
      (VerifyResult.ok,
        (verify (genkey [] (fun _ : Nat => 'A')).snd
          (some (genkey [] (fun _ : Nat => 'A')).fst) (some "HW-001")
          (some "alice")).snd)) :=
  ⟨by decide, fun l hl => absurd hl (List.not_mem_nil l),
    C2_fresh_key_bind_then_ok [] (fun _ : Nat => 'A') "HW-001"
      (some "alice") none (by decide)
      (fun l hl => absurd hl (List.not_mem_nil l))⟩

/-- Claim C9: the status answered by Activate is independent of the
nickname field: two requests equal in key, hwid and prior store but with
different nicknames receive the same status. -/
theorem C9_nickname_no_authorization_effect
    (st : Store) (keyF hwidF n1 n2 : Option String) :
    (verify st keyF hwidF n1).fst = (verify st keyF hwidF n2).fst := by
  cases hk : truthy keyF <;> cases hw : truthy hwidF <;>
    simp [verify, hk, hw]
  rcases hfind : st.find? (licMatches keyF) with _ | lic
  · simp [hfind]
  · cases hact : lic.active <;> simp [hfind, hact]
    rcases hb : lic.hwid with _ | hwv
    · simp [hb]
    · cases heq : hwv == hwidF.getD "" <;> simp [hb, heq]

theorem mem_updateFirst {p : License → Bool} {f : License → License}
    {st : Store} {x : License} (hx : x ∈ updateFirst p f st) :
    x ∈ st ∨ ∃ l0, st.find? p = some l0 ∧ x = f l0 := by
  induction st with
  | nil => simp [updateFirst] at hx
  | cons a as ih =>
    by_cases hpa : p a
    · simp only [updateFirst, if_pos hpa] at hx
      rcases List.mem_cons.mp hx with rfl | hxm
      · exact Or.inr ⟨a, by simp [hpa], rfl⟩
      · exact Or.inl (List.mem_cons_of_mem a hxm)
    · simp only [updateFirst, if_neg hpa] at hx
      rcases List.mem_cons.mp hx with rfl | hxm
      · exact Or.inl (List.mem_cons_self _ _)
      · rcases ih hxm with hmem | ⟨l0, hf, hx0⟩
        · exact Or.inl (List.mem_cons_of_mem a hmem)
        · exact Or.inr ⟨l0, by simp [hpa, hf], hx0⟩

theorem hwidOnce_of_subset {st stNew : Store} (hnd : keysNodup st)
    (hsub : ∀ x ∈ stNew, x ∈ st) : hwidOnce st stNew := by
  intro l hl hv hlv lNew hlNew hkey
  rw [show lNew = l from eq_of_keysNodup hnd (hsub lNew hlNew) hl hkey]
  exact hlv

theorem verify_snd_characterization
    (st : Store) (keyF hwidF nickF : Option String) :
    (verify st keyF hwidF nickF).snd = st ∨
    ∃ lic, st.find? (licMatches keyF) = some lic ∧ lic.hwid = none ∧
      (verify st keyF hwidF nickF).snd =
        updateFirst (licMatches keyF) (bindLic (hwidF.getD "") nickF) st := by
  cases hk : truthy keyF
  · exact Or.inl (by simp [verify, hk])
  · cases hw : truthy hwidF
    · exact Or.inl (by simp [verify, hk, hw])
    · rcases hfind : st.find? (licMatches keyF) with _ | lic
      · exact Or.inl (by simp [verify, hk, hw, hfind])
      · cases hact : lic.active
        · exact Or.inl (by simp [verify, hk, hw, hfind, hact])
        · rcases hb : lic.hwid with _ | hwv
          · exact Or.inr ⟨lic, rfl, hb,
              by simp [verify, hk, hw, hfind, hact, hb]⟩
          · by_cases heq : hwv = hwidF.getD ""
            · exact Or.inl (by simp [verify, hk, hw, hfind, hact, hb, heq])
            · exact Or.inl (by simp [verify, hk, hw, hfind, hact, hb, heq])

/-- Claim C8: over every operation — IssueKey with a successful insert,
Activate with any request, RevokeKey with any request, and ListKeys — a
row whose hardware id is already set never has it overwritten: every row
of the successor store carrying that key still carries the same hardware
id, so hwid transitions only from unset to set. -/
theorem C8_hwid_written_at_most_once
    (st : Store) (hnd : keysNodup st) :
    (∀ choice : Nat → Char,
      (∀ l ∈ st, l.key ≠ generate_key choice) →
      hwidOnce st (genkey st choice).snd) ∧
    (∀ keyF hwidF nickF : Option String,
      hwidOnce st (verify st keyF hwidF nickF).snd) ∧
    (∀ keyF : Option String, hwidOnce st (revoke st keyF).snd) ∧
    hwidOnce st (list_keys st).snd := by
  refine ⟨?_, ?_, ?_, ?_⟩
  · intro choice hfresh l hl hv hlv lNew hlNew hkey
    rcases List.mem_append.mp hlNew with hmem | hnew
    · rw [show lNew = l from eq_of_keysNodup hnd hmem hl hkey]
      exact hlv
    · rcases List.mem_singleton.mp hnew with rfl
      exact absurd hkey.symm (hfresh l hl)
  · intro keyF hwidF nickF
    rcases verify_snd_characterization st keyF hwidF nickF with hsnd |
      ⟨lic, hfind, hunb, hsnd⟩
    · rw [hsnd]
      exact hwidOnce_of_subset hnd (fun x hx => hx)
    · rw [hsnd]
      intro l hl hv hlv lNew hlNew hkey
      rcases mem_updateFirst hlNew with hmem | ⟨l0, hf0, rfl⟩
      · rw [show lNew = l from eq_of_keysNodup hnd hmem hl hkey]
        exact hlv
      · have hl0lic : l0 = lic := Option.some.inj (hf0.symm.trans hfind)
        have hl0m : l0 ∈ st := List.mem_of_find?_eq_some hf0
        have hkey0 : l0.key = l.key := hkey
        have hl0l : l0 = l := eq_of_keysNodup hnd hl0m hl hkey0
        rw [hl0l] at hl0lic
        rw [← hl0lic, hlv] at hunb
        cases hunb
  · intro keyF l hl hv hlv lNew hlNew hkey
    rcases hfind : st.find? (licMatches keyF) with _ | lic
    · rw [revoke] at hlNew
      rw [hfind] at hlNew
      rw [show lNew = l from eq_of_keysNodup hnd hlNew hl hkey]
      exact hlv
    · rw [revoke] at hlNew
      rw [hfind] at hlNew
      have hmem : lNew ∈ st := List.eraseP_subset st hlNew
      rw [show lNew = l from eq_of_keysNodup hnd hmem hl hkey]
      exact hlv
  · exact hwidOnce_of_subset hnd (fun x hx => hx)

/-- Witness for C8 at a one-row store with a bound hardware id. -/
theorem C8_hwid_written_at_most_once_witness :
    keysNodup [⟨"K", some "HW-001", none, true⟩] ∧
    ((∀ choice : Nat → Char,
      (∀ l ∈ ([⟨"K", some "HW-001", none, true⟩] : Store),
        l.key ≠ generate_key choice) →
      hwidOnce [⟨"K", some "HW-001", none, true⟩]
        (genkey [⟨"K", some "HW-001", none, true⟩] choice).snd) ∧
    (∀ keyF hwidF nickF : Option String,
      hwidOnce [⟨"K", some "HW-001", none, true⟩]
        (verify [⟨"K", some "HW-001", none, true⟩] keyF hwidF nickF).snd) ∧
    (∀ keyF : Option String,
      hwidOnce [⟨"K", some "HW-001", none, true⟩]
        (revoke [⟨"K", some "HW-001", none, true⟩] keyF).snd) ∧
    hwidOnce [⟨"K", some "HW-001", none, true⟩]
      (list_keys [⟨"K", some "HW-001", none, true⟩]).snd) :=
  ⟨by simp [keysNodup],
    C8_hwid_written_at_most_once [⟨"K", some "HW-001", none, true⟩]
      (by simp [keysNodup])⟩
